import Mathlib

/-!
Verification development for the Etsy → sevDesk synchronization core.

Shallow embedding of the financial-correctness-critical modules:
- `app/core/currency.py`  (rounding, net/gross/tax math, conversion, providers)
- `app/core/idempotency.py` (key generation, TTL store, decorator, operation)
- `app/clients/base.py`   (retrying HTTP transport wrapped by tenacity)

Monetary amounts are embedded as exact rationals (`ℚ`).  Python `Decimal`
arithmetic at the default 28-significant-digit context agrees with exact
rational arithmetic followed by 2-decimal quantization for every value the
claims range over (2-decimal operands, integer tax rates, small-denominator
rates), because the exact results are fractions with denominator at most a
few hundred — never within 10⁻²⁰ of a half-cent tie except when exactly on
it, in which case `Decimal` multiplication/division is itself exact.
Clock values are embedded as seconds (`Nat`); `datetime` subtraction and
`timedelta` comparison become arithmetic on seconds.
-/

namespace EtsySevdesk

/-! ## CurrencyMath — `app/core/currency.py` -/

/-- `round_currency(amount, decimals)`: `Decimal.quantize` with
`ROUND_HALF_UP` (round half away from zero) at `decimals` places. -/
def round_currency (amount : ℚ) (decimals : Nat) : ℚ :=
  if 0 ≤ amount then
    ((⌊amount * (10 : ℚ) ^ decimals + 1/2⌋ : ℤ) : ℚ) / (10 : ℚ) ^ decimals
  else
    -(((⌊-amount * (10 : ℚ) ^ decimals + 1/2⌋ : ℤ) : ℚ) / (10 : ℚ) ^ decimals)

/-- `calculate_net_from_gross(gross, tax_rate)` from `currency.py`. -/
def calculate_net_from_gross (gross tax_rate : ℚ) : ℚ :=
  round_currency (gross / (1 + tax_rate / 100)) 2

/-- `calculate_gross_from_net(net, tax_rate)` from `currency.py`. -/
def calculate_gross_from_net (net tax_rate : ℚ) : ℚ :=
  round_currency (net * (1 + tax_rate / 100)) 2

/-- `calculate_tax_amount(net, tax_rate)` from `currency.py`. -/
def calculate_tax_amount (net tax_rate : ℚ) : ℚ :=
  round_currency (net * (tax_rate / 100)) 2

/-! ## Exchange-rate providers — `app/core/currency.py` -/

/-- Errors raised by the currency layer.  `unsupported` mirrors the
`ValueError` naming the missing code and provider; `divisionByZero` mirrors
`decimal.DivisionByZero` (a configured zero rate); `fetchFailed` mirrors a
propagated ECB fetch exception (carrying an identifying tag). -/
inductive CurrencyError where
  | unsupported (provider code : String)
  | notImplemented (provider : String)
  | divisionByZero
  | fetchFailed (tag : Nat)
deriving DecidableEq

/-- The shared EUR-based cross-rate arithmetic of `ManualProvider.get_rate`
and `ECBProvider.get_rate` (after the identity short-circuit): rates are a
table relative to EUR; `from == EUR` reads the table, `to == EUR` inverts,
otherwise divide.  `Decimal` division by a zero rate raises, embedded as
`divisionByZero`. -/
def crossRate (provider : String) (rates : List (String × ℚ))
    (from_currency to_currency : String) : Except CurrencyError ℚ :=
  if from_currency = "EUR" then
    match rates.lookup to_currency with
    | none => .error (.unsupported provider to_currency)
    | some r => .ok r
  else if to_currency = "EUR" then
    match rates.lookup from_currency with
    | none => .error (.unsupported provider from_currency)
    | some r => if r = 0 then .error .divisionByZero else .ok (1 / r)
  else
    match rates.lookup from_currency, rates.lookup to_currency with
    | some rf, some rt =>
        if rf = 0 then .error .divisionByZero else .ok (rt / rf)
    | _, _ =>
        .error (.unsupported provider (from_currency ++ "/" ++ to_currency))

/-- `ManualProvider.get_rate`: identity short-circuit, then pure table math. -/
def ManualProvider.get_rate (rates : List (String × ℚ))
    (from_currency to_currency : String) : Except CurrencyError ℚ :=
  if from_currency = to_currency then .ok 1
  else crossRate "manual" rates from_currency to_currency

/-- `FixerProvider.get_rate`: identity short-circuit, otherwise
`NotImplementedError`. -/
def FixerProvider.get_rate (from_currency to_currency : String) :
    Except CurrencyError ℚ :=
  if from_currency = to_currency then .ok 1
  else .error (.notImplemented "fixer")

/-- `ECBProvider.get_rate`: identity short-circuit **before** `_fetch_rates`
is awaited, then the same EUR-based math on the fetched table.  The fetch is
embedded as its outcome (`fetched`), so "no network call" is expressed as
independence from `fetched`. -/
def ECBProvider.get_rate (fetched : Except CurrencyError (List (String × ℚ)))
    (from_currency to_currency : String) : Except CurrencyError ℚ :=
  if from_currency = to_currency then .ok 1
  else
    match fetched with
    | .error e => .error e
    | .ok rates => crossRate "ecb" rates from_currency to_currency

/-- One ECB cache slot: `(fetched-at timestamp, rate table)`. -/
structure ECBCacheEntry where
  fetchedAt : Nat
  rates : List (String × ℚ)
deriving DecidableEq

/-- `ECBProvider.CACHE_DURATION = timedelta(hours=24)`, in seconds. -/
def ECBcacheDurationSecs : Nat := 24 * 3600

/-- Python `dict` assignment `cache[key] = entry` on an association list. -/
def upsertCache (key : String) (entry : ECBCacheEntry)
    (cache : List (String × ECBCacheEntry)) : List (String × ECBCacheEntry) :=
  (key, entry) :: cache.filter (fun e => !(e.1 == key))

/-- `ECBProvider._fetch_rates`: return a fresh cache entry without fetching;
otherwise fetch (outcome supplied as `fetchOutcome`) and cache the result; on
fetch failure fall back to the cache entry under the same key if one exists,
else propagate the failure unchanged.  Returns the rates together with the
updated cache. -/
def ECBProvider.fetch_rates (cache : List (String × ECBCacheEntry))
    (cacheKey : String) (tNow : Nat)
    (fetchOutcome : Except CurrencyError (List (String × ℚ))) :
    Except CurrencyError (List (String × ℚ) × List (String × ECBCacheEntry)) :=
  match cache.lookup cacheKey with
  | some entry =>
      if tNow - entry.fetchedAt < ECBcacheDurationSecs then
        .ok (entry.rates, cache)
      else
        match fetchOutcome with
        | .ok rates => .ok (rates, upsertCache cacheKey ⟨tNow, rates⟩ cache)
        | .error _ => .ok (entry.rates, cache)
  | none =>
      match fetchOutcome with
      | .ok rates => .ok (rates, upsertCache cacheKey ⟨tNow, rates⟩ cache)
      | .error e => .error e

/-- `"daily" if date is None else date.strftime("%Y-%m-%d")` — the `_fetch_rates`
cache key; dates are embedded as their formatted strings. -/
def ecbCacheKey (date : Option String) : String :=
  match date with
  | none => "daily"
  | some d => d

/-- `convert_currency(amount, from, to, date)`: identity returns the amount
**unrounded**; otherwise `provider.get_rate` then quantize half-up at 2
decimals.  The configured provider is embedded as its `get_rate` function. -/
def convert_currency (amount : ℚ) (from_currency to_currency : String)
    (provider_rate : String → String → Option String → Except CurrencyError ℚ)
    (date : Option String) : Except CurrencyError ℚ :=
  if from_currency = to_currency then .ok amount
  else
    match provider_rate from_currency to_currency date with
    | .error e => .error e
    | .ok rate => .ok (round_currency (amount * rate) 2)

/-- A `ManualProvider` as a rate function (it ignores the date). -/
def manualRateFn (rates : List (String × ℚ)) :
    String → String → Option String → Except CurrencyError ℚ :=
  fun f t _ => ManualProvider.get_rate rates f t

/-! ## IdempotencyStore — `app/core/idempotency.py`

A stored operation result is an opaque Python value; `pynone` is Python's
`None`.  `IdempotencyStore.get` returns `None` both for a missing/expired
key and for a stored `None` — exactly as the source does — so absence is
encoded as `pynone`, not as an `Option` layer the source does not have.
The injected clock `now()` is a `Nat` of seconds passed explicitly. -/

/-- An opaque Python value as stored in the idempotency store. -/
inductive PyVal where
  | pynone
  | pystr (s : String)
  | pyint (n : Int)
deriving DecidableEq

/-- `IdempotencyStore`: TTL in hours (`__init__` default 24) and the
`_store` dict `key ↦ (stored_time, result)`. -/
structure IdempotencyStore where
  ttl_hours : Nat
  entries : List (String × Nat × PyVal)
deriving DecidableEq

/-- `IdempotencyStore(ttl_hours)` — fresh store. -/
def IdempotencyStore.init (ttl_hours : Nat) : IdempotencyStore :=
  ⟨ttl_hours, []⟩

/-- The module-level `_idempotency_store = IdempotencyStore()` (TTL
defaulted to 24 hours). -/
def IdempotencyStore.defaultStore : IdempotencyStore :=
  .init 24

/-- `IdempotencyStore.get`: `None` when absent; when present, expired iff
`now() - stored_time > timedelta(hours=ttl_hours)`, in which case the entry
is deleted and `None` returned; otherwise the stored result.  Returns the
result together with the (possibly lazily cleaned) store. -/
def IdempotencyStore.get (s : IdempotencyStore) (tNow : Nat) (key : String) :
    PyVal × IdempotencyStore :=
  match s.entries.lookup key with
  | none => (.pynone, s)
  | some (storedTime, result) =>
      if s.ttl_hours * 3600 < tNow - storedTime then
        (.pynone, ⟨s.ttl_hours, s.entries.filter (fun e => !(e.1 == key))⟩)
      else (result, s)

/-- `IdempotencyStore.set`: `self._store[key] = (now(), result)` — dict
assignment overwrites any prior binding of `key`. -/
def IdempotencyStore.set (s : IdempotencyStore) (tNow : Nat) (key : String)
    (result : PyVal) : IdempotencyStore :=
  ⟨s.ttl_hours, (key, tNow, result) :: s.entries.filter (fun e => !(e.1 == key))⟩

/-- Outcome of one call through the `idempotent` decorator's wrapper:
the returned value, the store afterwards, and whether the wrapped function
was actually executed on this call. -/
structure WrapperRun where
  result : PyVal
  store : IdempotencyStore
  executed : Bool
deriving DecidableEq

/-- The `wrapper` inside the `idempotent` decorator, after the idempotency
key has been computed (from `key_func` or `generate_idempotency_key` — both
are pure functions of the arguments, so a repeat call with the same
arguments presents the same `key`).  The wrapped function is embedded as
the value `f` it would return: `cached = store.get(key)`; if
`cached is not None` return it without executing; else execute, store,
return. -/
def idempotentCall (store : IdempotencyStore) (tNow : Nat) (key : String)
    (f : PyVal) : WrapperRun :=
  let r := store.get tNow key
  match r.1 with
  | .pynone => ⟨f, r.2.set tNow key f, true⟩
  | cached => ⟨cached, r.2, false⟩

/-- `IdempotentOperation` after `__enter__`: the generated key and
`self.cached_result` (`None` when the store had nothing valid). -/
structure IdempotentOperation where
  key : String
  cached_result : PyVal
deriving DecidableEq

/-- `IdempotentOperation.__enter__`: `self.cached_result = store.get(self.key)`. -/
def IdempotentOperation.enter (store : IdempotencyStore) (tNow : Nat)
    (key : String) : IdempotentOperation × IdempotencyStore :=
  let r := store.get tNow key
  (⟨key, r.1⟩, r.2)

/-- `should_execute`: `self.cached_result is None`. -/
def IdempotentOperation.should_execute (op : IdempotentOperation) : Bool :=
  op.cached_result == .pynone

/-- `get_cached_result`: raises `IdempotencyError` when
`self.cached_result is None`, else returns it. -/
def IdempotentOperation.get_cached_result (op : IdempotentOperation) :
    Except String PyVal :=
  match op.cached_result with
  | .pynone => .error ("No cached result for key: " ++ op.key)
  | r => .ok r

/-- `store_result`: `store.set(key, result)` and update the in-scope cache. -/
def IdempotentOperation.store_result (op : IdempotentOperation)
    (store : IdempotencyStore) (tNow : Nat) (result : PyVal) :
    IdempotentOperation × IdempotencyStore :=
  (⟨op.key, result⟩, store.set tNow op.key result)

/-! ## RetryingTransport — `app/clients/base.py`

`BaseAPIClient.request` is an async method decorated with tenacity
`@retry(stop=stop_after_attempt(max_retry_attempts),
wait=wait_exponential(multiplier=retry_backoff_multiplier, max=retry_max_wait),
retry=retry_if_exception_type((httpx.NetworkError, httpx.TimeoutException)))`.
The wrapped body performs one HTTP exchange; the remote is embedded as a
function from the 1-based attempt number to that attempt's outcome.  Waits
are in seconds (`ℚ`); the run records total seconds slept (both the
`Retry-After` sleep inside the body and tenacity's backoff sleeps). -/

/-- Outcome of one raw HTTP exchange as seen inside the `try` block. -/
inductive HttpOutcome where
  | ok (body : Nat)
  | status (code : Nat) (retryAfter : Option Nat) (body : Nat)
  | netError
  | timeout
deriving DecidableEq

/-- The Python exception escaping one execution of the decorated body (or
the whole call).  `httpxNetworkError`/`httpxTimeout` are the raw `httpx`
exception classes tenacity is configured to retry; `apiError`,
`rateLimitError`, `authError` are the module's `APIError` hierarchy;
`retryError` is tenacity's `RetryError` wrapper raised on exhaustion
(the decorator does not set `reraise=True`). -/
inductive PyExc where
  | apiError (status : Option Nat)
  | rateLimitError (status : Nat)
  | authError (status : Nat)
  | httpxNetworkError
  | httpxTimeout
  | retryError (last : PyExc)
deriving DecidableEq

deriving instance DecidableEq for Except

/-- One execution of the body of `BaseAPIClient.request`, given the raw
exchange outcome.  Returns the result or escaping exception, plus seconds
slept inside the body (the 429 branch sleeps `Retry-After`, default 60,
**before** raising `RateLimitError`).  An `httpx.NetworkError` or
`httpx.TimeoutException` is caught by `except httpx.RequestError` and
re-raised as plain `APIError` (both classes are subclasses of
`httpx.RequestError`); a 4xx/5xx outside 429/401/403 is turned by
`raise_for_status` + `except httpx.HTTPStatusError` into an `APIError`
carrying the status; any other status falls through to `response.json()`
(redirects are followed by the client). -/
def requestBody (outcome : HttpOutcome) : Except PyExc Nat × ℚ :=
  match outcome with
  | .ok body => (.ok body, 0)
  | .netError => (.error (.apiError none), 0)
  | .timeout => (.error (.apiError none), 0)
  | .status code retryAfter body =>
      if code = 429 then
        (.error (.rateLimitError 429), ((retryAfter.getD 60 : Nat) : ℚ))
      else if code = 401 ∨ code = 403 then
        (.error (.authError code), 0)
      else if 400 ≤ code ∧ code < 600 then
        (.error (.apiError (some code)), 0)
      else (.ok body, 0)

/-- tenacity `retry_if_exception_type((httpx.NetworkError,
httpx.TimeoutException)))` — the only exceptions the decorator retries. -/
def tenacityRetryable : PyExc → Bool
  | .httpxNetworkError => true
  | .httpxTimeout => true
  | _ => false

/-- tenacity `wait_exponential(multiplier, max)` before the attempt after
failed attempt number `n`: `max(0, min(multiplier * 2^(n-1), maxWait))`. -/
def backoffWait (multiplier maxWait : ℚ) (n : Nat) : ℚ :=
  max 0 (min (multiplier * 2 ^ (n - 1)) maxWait)

/-- Result of a whole `request` call: outcome, number of attempts actually
made, and total seconds slept. -/
structure RequestRun where
  outcome : Except PyExc Nat
  attemptsMade : Nat
  totalSleep : ℚ
deriving DecidableEq

/-- The tenacity retry loop around `requestBody`: run the attempt; success
returns; a non-retryable exception propagates at once; a retryable one is
retried after the exponential backoff sleep until `stop_after_attempt
maxAttempts` triggers, at which point tenacity raises `RetryError` around
the last exception.  `fuel` only bounds the recursion and is instantiated
to `maxAttempts` in `BaseAPIClient.request`. -/
def tenacityLoop (maxAttempts : Nat) (multiplier maxWait : ℚ)
    (transport : Nat → HttpOutcome) :
    Nat → Nat → ℚ → RequestRun
  | 0, attemptNo, slept => ⟨.error (.retryError (.apiError none)), attemptNo - 1, slept⟩
  | fuel + 1, attemptNo, slept =>
      let r := requestBody (transport attemptNo)
      let slept1 := slept + r.2
      match r.1 with
      | .ok v => ⟨.ok v, attemptNo, slept1⟩
      | .error e =>
          if tenacityRetryable e then
            if maxAttempts ≤ attemptNo then ⟨.error (.retryError e), attemptNo, slept1⟩
            else
              tenacityLoop maxAttempts multiplier maxWait transport fuel
                (attemptNo + 1) (slept1 + backoffWait multiplier maxWait attemptNo)
          else ⟨.error e, attemptNo, slept1⟩

/-- `BaseAPIClient.request` under its `@retry` decorator.  Configuration
defaults (`app/core/config.py`): `max_retry_attempts = 3`,
`retry_backoff_multiplier = 2`, `retry_max_wait = 300`. -/
def BaseAPIClient.request (maxAttempts : Nat) (multiplier maxWait : ℚ)
    (transport : Nat → HttpOutcome) : RequestRun :=
  tenacityLoop maxAttempts multiplier maxWait transport maxAttempts 1 0

/-! ## SHA-256 (`hashlib.sha256`), byte-exact

32-bit words are `Nat` reduced mod `2^32`; messages are byte lists. -/

/-- Truncate to a 32-bit word. -/
def w32 (n : Nat) : Nat := n % 4294967296

/-- Rotate a 32-bit word right by `n`. -/
def rotr32 (n x : Nat) : Nat := (x >>> n) ||| w32 (x <<< (32 - n))

/-- SHA-256 message-schedule function σ₀. -/
def schedSig0 (x : Nat) : Nat := rotr32 7 x ^^^ rotr32 18 x ^^^ (x >>> 3)

/-- SHA-256 message-schedule function σ₁. -/
def schedSig1 (x : Nat) : Nat := rotr32 17 x ^^^ rotr32 19 x ^^^ (x >>> 10)

/-- SHA-256 round function Σ₀. -/
def roundSig0 (x : Nat) : Nat := rotr32 2 x ^^^ rotr32 13 x ^^^ rotr32 22 x

/-- SHA-256 round function Σ₁. -/
def roundSig1 (x : Nat) : Nat := rotr32 6 x ^^^ rotr32 11 x ^^^ rotr32 25 x

/-- SHA-256 Ch (complement as xor with the all-ones word). -/
def chFn (x y z : Nat) : Nat := (x &&& y) ^^^ ((x ^^^ 4294967295) &&& z)

/-- SHA-256 Maj. -/
def majFn (x y z : Nat) : Nat := (x &&& y) ^^^ (x &&& z) ^^^ (y &&& z)

/-- The 64 SHA-256 round constants of FIPS 180-4 (decimal). -/
def sha256K : List Nat :=
  [1116352408, 1899447441, 3049323471, 3921009573, 961987163, 1508970993,
   2453635748, 2870763221, 3624381080, 310598401, 607225278, 1426881987,
   1925078388, 2162078206, 2614888103, 3248222580, 3835390401, 4022224774,
   264347078, 604807628, 770255983, 1249150122, 1555081692, 1996064986,
   2554220882, 2821834349, 2952996808, 3210313671, 3336571891, 3584528711,
   113926993, 338241895, 666307205, 773529912, 1294757372, 1396182291,
   1695183700, 1986661051, 2177026350, 2456956037, 2730485921, 2820302411,
   3259730800, 3345764771, 3516065817, 3600352804, 4094571909, 275423344,
   430227734, 506948616, 659060556, 883997877, 958139571, 1322822218,
   1537002063, 1747873779, 1955562222, 2024104815, 2227730452, 2361852424,
   2428436474, 2756734187, 3204031479, 3329325298]

/-- The eight 32-bit working variables. -/
structure Hash8 where
  a : Nat
  b : Nat
  c : Nat
  d : Nat
  e : Nat
  f : Nat
  g : Nat
  h : Nat
deriving DecidableEq

/-- SHA-256 initial hash value (decimal). -/
def sha256Init : Hash8 :=
  ⟨1779033703, 3144134277, 1013904242, 2773480762,
   1359893119, 2600822924, 528734635, 1541459225⟩

/-- One SHA-256 round. -/
def sha256Round (st : Hash8) (k w : Nat) : Hash8 :=
  let t1 := w32 (st.h + roundSig1 st.e + chFn st.e st.f st.g + k + w)
  let t2 := w32 (roundSig0 st.a + majFn st.a st.b st.c)
  ⟨w32 (t1 + t2), st.a, st.b, st.c, w32 (st.d + t1), st.e, st.f, st.g⟩

/-- Fold the 64 rounds over the paired `(k, w)` list. -/
def sha256Rounds : List (Nat × Nat) → Hash8 → Hash8
  | [], st => st
  | (k, w) :: rest, st => sha256Rounds rest (sha256Round st k w)

/-- Message-schedule expansion, carried with the most recent word first;
positions 1, 6, 14, 15 are w_{t-2}, w_{t-7}, w_{t-15}, w_{t-16}. -/
def expandRev : Nat → List Nat → List Nat
  | 0, ws => ws
  | n + 1, ws =>
      expandRev n
        (w32 (schedSig1 (ws.getD 1 0) + ws.getD 6 0 + schedSig0 (ws.getD 14 0) + ws.getD 15 0) :: ws)

/-- Big-endian 4-byte groups to 32-bit words. -/
def bytesToWords : List Nat → List Nat
  | b0 :: b1 :: b2 :: b3 :: rest =>
      (b0 * 16777216 + b1 * 65536 + b2 * 256 + b3) :: bytesToWords rest
  | _ => []

/-- The 64-entry message schedule of one 64-byte block. -/
def messageSchedule (block : List Nat) : List Nat :=
  (expandRev 48 (bytesToWords block).reverse).reverse

/-- Wordwise addition mod 2³² of two states. -/
def sha256AddState (x y : Hash8) : Hash8 :=
  ⟨w32 (x.a + y.a), w32 (x.b + y.b), w32 (x.c + y.c), w32 (x.d + y.d),
   w32 (x.e + y.e), w32 (x.f + y.f), w32 (x.g + y.g), w32 (x.h + y.h)⟩

/-- Compress one 64-byte block into the running state. -/
def sha256Compress (st : Hash8) (block : List Nat) : Hash8 :=
  sha256AddState st (sha256Rounds (sha256K.zip (messageSchedule block)) st)

/-- Fold all 64-byte blocks; `fuel` bounds the recursion and is
instantiated with the (padded) message length. -/
def sha256Blocks : Nat → List Nat → Hash8 → Hash8
  | 0, _, st => st
  | fuel + 1, bytes, st =>
      match bytes with
      | [] => st
      | _ => sha256Blocks fuel (bytes.drop 64) (sha256Compress st (bytes.take 64))

/-- A `Nat` as `k` big-endian bytes. -/
def natToBytesBE : Nat → Nat → List Nat
  | 0, _ => []
  | k + 1, v => natToBytesBE k (v >>> 8) ++ [v &&& 255]

/-- SHA-256 padding: `0x80`, zeros to 56 mod 64, 8-byte big-endian bit length. -/
def sha256Pad (msg : List Nat) : List Nat :=
  msg ++ 128 :: (List.replicate ((119 - msg.length % 64) % 64) 0
    ++ natToBytesBE 8 (msg.length * 8))

/-- A lowercase hex digit. -/
def hexDigitChar (n : Nat) : Char :=
  if n < 10 then Char.ofNat (48 + n) else Char.ofNat (87 + n)

/-- A `Nat` as `k` lowercase hex characters, most significant first. -/
def natToHexChars : Nat → Nat → List Char
  | 0, _ => []
  | k + 1, v => natToHexChars k (v >>> 4) ++ [hexDigitChar (v &&& 15)]

/-- `hashlib.sha256(msg).hexdigest()` as a character list. -/
def sha256Hexdigest (msg : List Nat) : List Char :=
  let padded := sha256Pad msg
  let st := sha256Blocks padded.length padded sha256Init
  natToHexChars 8 st.a ++ natToHexChars 8 st.b ++ natToHexChars 8 st.c ++
  natToHexChars 8 st.d ++ natToHexChars 8 st.e ++ natToHexChars 8 st.f ++
  natToHexChars 8 st.g ++ natToHexChars 8 st.h

/-! ## `json.dumps(..., sort_keys=True, default=str)` and
`generate_idempotency_key` — `app/core/idempotency.py`

A Python value reachable by the key serializer: strings, ints, arrays
(lists/tuples) and string-keyed dicts (other objects enter as their `str()`
image, i.e. again a string).  `json.dumps` with the default separators
emits `", "` between items and `": "` after keys; `sort_keys=True` sorts
every dict's keys; `ensure_ascii` (default) escapes the output to pure
ASCII, so `.encode()` of the result is the codepoint-wise byte image. -/

/-- A JSON-serializable Python value. -/
inductive JVal where
  | jstr (s : String)
  | jint (n : Int)
  | jlist (xs : List JVal)
  | jobj (kvs : List (String × JVal))

/-- One escaped character of a JSON string literal, as Python's
`json.dumps` (ensure_ascii) produces it: the two-character escapes for
quote, backslash, newline, tab, carriage return, backspace and form feed,
`\uXXXX` for remaining control and all non-ASCII BMP characters, and a
surrogate pair for astral characters. -/
def escapeJsonChar (c : Char) : String :=
  if c = '"' then "\\\""
  else if c = '\\' then "\\\\"
  else if c = '\n' then "\\n"
  else if c = '\t' then "\\t"
  else if c = '\r' then "\\r"
  else if c.toNat = 8 then "\\b"
  else if c.toNat = 12 then "\\f"
  else if c.toNat < 32 ∨ (126 < c.toNat ∧ c.toNat ≤ 65535) then
    "\\u" ++ String.mk [hexDigitChar (c.toNat >>> 12 &&& 15),
      hexDigitChar (c.toNat >>> 8 &&& 15), hexDigitChar (c.toNat >>> 4 &&& 15),
      hexDigitChar (c.toNat &&& 15)]
  else if 65535 < c.toNat then
    let v := c.toNat - 65536
    "\\u" ++ String.mk (natToHexChars 4 (55296 + (v >>> 10))) ++
    "\\u" ++ String.mk (natToHexChars 4 (56320 + (v &&& 1023)))
  else String.mk [c]

/-- A JSON string literal: quotes around the escaped characters. -/
def quoteJson (s : String) : String :=
  "\"" ++ String.join (s.data.map escapeJsonChar) ++ "\""

/-- Codepoint-lexicographic strict comparison of character lists —
Python's `str <`. -/
def charListLt : List Char → List Char → Bool
  | [], [] => false
  | [], _ :: _ => true
  | _ :: _, [] => false
  | a :: as, b :: bs =>
      if a.toNat < b.toNat then true
      else if b.toNat < a.toNat then false
      else charListLt as bs

/-- Python's `str <=` (total order on strings by codepoints). -/
def strLe (a b : String) : Bool :=
  !(charListLt b.data a.data)

/-- Ordering of object members used by `sort_keys=True`: by string key,
codepoint-lexicographic (Python compares the `(key, value)` tuples, but a
dict's keys are unique so the key decides). -/
def memberLe (p q : String × JVal) : Prop :=
  strLe p.1 q.1 = true

instance memberLeDec : DecidableRel memberLe :=
  fun p q => instDecidableEqBool (strLe p.1 q.1) true

/-- Sort a member list by key (stable sort, like Python's `sorted`). -/
def sortMembers (l : List (String × JVal)) : List (String × JVal) :=
  List.insertionSort memberLe l

mutual

/-- `sort_keys=True` as a canonicalization pass: sort every object's
members by key, recursively. -/
def sortJson : JVal → JVal
  | .jstr s => .jstr s
  | .jint n => .jint n
  | .jlist xs => .jlist (sortJsonList xs)
  | .jobj kvs => .jobj (sortMembers (sortJsonMembers kvs))
termination_by structural v => v

/-- `sortJson` on each element of an array. -/
def sortJsonList : List JVal → List JVal
  | [] => []
  | x :: xs => sortJson x :: sortJsonList xs
termination_by structural l => l

/-- `sortJson` on each member value of an object. -/
def sortJsonMembers : List (String × JVal) → List (String × JVal)
  | [] => []
  | (k, v) :: xs => (k, sortJson v) :: sortJsonMembers xs
termination_by structural l => l

end

mutual

/-- Serialize a value with `json.dumps` default separators (objects are
emitted in stored member order; pre-sort with `sortJson` for
`sort_keys=True`). -/
def dumpsVal : JVal → String
  | .jstr s => quoteJson s
  | .jint n => toString n
  | .jlist xs => "[" ++ dumpsElems xs ++ "]"
  | .jobj kvs => "\x7b" ++ dumpsMembers kvs ++ "\x7d"
termination_by structural v => v

/-- Array elements joined by `", "`. -/
def dumpsElems : List JVal → String
  | [] => ""
  | [x] => dumpsVal x
  | x :: y :: xs => dumpsVal x ++ ", " ++ dumpsElems (y :: xs)
termination_by structural l => l

/-- Object members `"key": value` joined by `", "`. -/
def dumpsMembers : List (String × JVal) → String
  | [] => ""
  | [(k, v)] => quoteJson k ++ ": " ++ dumpsVal v
  | (k, v) :: m :: xs =>
      quoteJson k ++ ": " ++ dumpsVal v ++ ", " ++ dumpsMembers (m :: xs)
termination_by structural l => l

end

/-- `json.dumps(v, sort_keys=True)`. -/
def jsonDumpsSorted (v : JVal) : String :=
  dumpsVal (sortJson v)

/-- The UTF-8 bytes of an ASCII string (`str.encode()`; `json.dumps` with
`ensure_ascii` only ever hands us ASCII). -/
def asciiBytes (s : String) : List Nat :=
  s.data.map Char.toNat

/-- `generate_idempotency_key(prefix, *args, **kwargs)`: serialize
`{"prefix": prefix, "args": args, "kwargs": kwargs}` canonically
(sorted keys, stable string conversion) and return
`prefix + ":" + first 16 hex chars of its SHA-256`. -/
def generate_idempotency_key (pfx : String) (args : List JVal)
    (kwargs : List (String × JVal)) : String :=
  let keyData : JVal :=
    .jobj [("prefix", .jstr pfx), ("args", .jlist args), ("kwargs", .jobj kwargs)]
  let jsonStr := jsonDumpsSorted keyData
  pfx ++ ":" ++ String.mk ((sha256Hexdigest (asciiBytes jsonStr)).take 16)

/-! ## Helper lemmas -/

theorem charListLt_irrefl : ∀ a : List Char, charListLt a a = false := by
  intro a
  induction a with
  | nil => rfl
  | cons x xs ih => simp [charListLt, Nat.lt_irrefl, ih]

theorem charListLt_trans : ∀ (a b c : List Char), charListLt a b = true →
    charListLt b c = true → charListLt a c = true := by
  intro a
  induction a with
  | nil =>
    intro b c h1 h2
    cases b with
    | nil => simp [charListLt] at h1
    | cons y ys =>
      cases c with
      | nil => simp [charListLt] at h2
      | cons z zs => simp [charListLt]
  | cons x xs ih =>
    intro b c h1 h2
    cases b with
    | nil => simp [charListLt] at h1
    | cons y ys =>
      cases c with
      | nil => simp [charListLt] at h2
      | cons z zs =>
        simp only [charListLt] at h1 h2 ⊢
        by_cases hxy : x.toNat < y.toNat
        · by_cases hyz : y.toNat < z.toNat
          · simp [Nat.lt_trans hxy hyz]
          · rw [if_neg hyz] at h2
            by_cases hzy : z.toNat < y.toNat
            · rw [if_pos hzy] at h2; exact absurd h2 (by simp)
            · have heq : y.toNat = z.toNat :=
                Nat.le_antisymm (Nat.le_of_not_lt hzy) (Nat.le_of_not_lt hyz)
              simp [heq ▸ hxy]
        · rw [if_neg hxy] at h1
          by_cases hyx : y.toNat < x.toNat
          · rw [if_pos hyx] at h1; exact absurd h1 (by simp)
          · rw [if_neg hyx] at h1
            have hxy' : x.toNat = y.toNat :=
              Nat.le_antisymm (Nat.le_of_not_lt hyx) (Nat.le_of_not_lt hxy)
            by_cases hyz : y.toNat < z.toNat
            · simp [hxy' ▸ hyz]
            · rw [if_neg hyz] at h2
              by_cases hzy : z.toNat < y.toNat
              · rw [if_pos hzy] at h2; exact absurd h2 (by simp)
              · rw [if_neg hzy] at h2
                have hyz' : y.toNat = z.toNat :=
                  Nat.le_antisymm (Nat.le_of_not_lt hzy) (Nat.le_of_not_lt hyz)
                have hxz : ¬ x.toNat < z.toNat := by omega
                have hzx : ¬ z.toNat < x.toNat := by omega
                rw [if_neg hxz, if_neg hzx]
                exact ih ys zs h1 h2

theorem charListLt_asymm {a b : List Char} (h : charListLt a b = true) :
    charListLt b a = false := by
  cases hba : charListLt b a with
  | false => rfl
  | true =>
      exact absurd (charListLt_trans a b a h hba) (by simp [charListLt_irrefl])

theorem charListLt_eq_of_not : ∀ (a b : List Char), charListLt a b = false →
    charListLt b a = false → a = b := by
  intro a
  induction a with
  | nil =>
    intro b h1 _
    cases b with
    | nil => rfl
    | cons y ys => simp [charListLt] at h1
  | cons x xs ih =>
    intro b h1 h2
    cases b with
    | nil => simp [charListLt] at h2
    | cons y ys =>
      simp only [charListLt] at h1 h2
      by_cases hxy : x.toNat < y.toNat
      · rw [if_pos hxy] at h1; exact absurd h1 (by simp)
      · by_cases hyx : y.toNat < x.toNat
        · rw [if_pos hyx] at h2; exact absurd h2 (by simp)
        · rw [if_neg hxy, if_neg hyx] at h1
          rw [if_neg hyx, if_neg hxy] at h2
          have hchar : x = y := by
            have hv : x.toNat = y.toNat :=
              Nat.le_antisymm (Nat.le_of_not_lt hyx) (Nat.le_of_not_lt hxy)
            have := congrArg Char.ofNat hv
            rwa [Char.ofNat_toNat, Char.ofNat_toNat] at this
          rw [hchar, ih ys h1 h2]

theorem strLe_total (a b : String) : strLe a b = true ∨ strLe b a = true := by
  unfold strLe
  cases h : charListLt b.data a.data with
  | false => left; rfl
  | true => right; simp [charListLt_asymm h]

theorem strLe_trans {a b c : String} (h1 : strLe a b = true)
    (h2 : strLe b c = true) : strLe a c = true := by
  simp only [strLe, Bool.not_eq_true'] at h1 h2 ⊢
  cases hbc : charListLt b.data c.data with
  | true =>
      cases hca : charListLt c.data a.data with
      | false => rfl
      | true => exact absurd (charListLt_trans _ _ _ hbc hca) (by simp [h1])
  | false =>
      have hdata : b.data = c.data := charListLt_eq_of_not _ _ hbc h2
      rw [← hdata]; exact h1

theorem strLe_antisymm {a b : String} (h1 : strLe a b = true)
    (h2 : strLe b a = true) : a = b := by
  simp only [strLe, Bool.not_eq_true'] at h1 h2
  exact String.ext (charListLt_eq_of_not _ _ h2 h1)

instance : IsTotal (String × JVal) memberLe :=
  ⟨fun p q => strLe_total p.1 q.1⟩

instance : IsTrans (String × JVal) memberLe :=
  ⟨fun _ _ _ h1 h2 => strLe_trans h1 h2⟩

theorem sortMembers_perm (l : List (String × JVal)) : (sortMembers l).Perm l :=
  List.perm_insertionSort memberLe l

theorem sortMembers_sorted (l : List (String × JVal)) :
    List.Sorted memberLe (sortMembers l) :=
  List.sorted_insertionSort memberLe l

/-- Two permutations of one member list with pairwise-distinct keys have the
same sorted form: sortedness is upgraded to a strict (hence antisymmetric)
relation using key distinctness. -/
theorem sortMembers_eq_of_perm {l1 l2 : List (String × JVal)} (hp : l1.Perm l2)
    (hnd : (l1.map Prod.fst).Nodup) : sortMembers l1 = sortMembers l2 := by
  have hsymm : ∀ {p q : String × JVal}, p.1 ≠ q.1 → q.1 ≠ p.1 :=
    fun h => h.symm
  have hq1 : l1.Pairwise (fun p q : String × JVal => p.1 ≠ q.1) :=
    List.pairwise_map.mp hnd
  have hq2 : l2.Pairwise (fun p q : String × JVal => p.1 ≠ q.1) :=
    ((hp.pairwise_iff hsymm).mp hq1)
  have hne1 : (sortMembers l1).Pairwise (fun p q : String × JVal => p.1 ≠ q.1) :=
    ((sortMembers_perm l1).pairwise_iff hsymm).mpr hq1
  have hne2 : (sortMembers l2).Pairwise (fun p q : String × JVal => p.1 ≠ q.1) :=
    ((sortMembers_perm l2).pairwise_iff hsymm).mpr hq2
  haveI : IsAntisymm (String × JVal)
      (fun p q => memberLe p q ∧ p.1 ≠ q.1) :=
    ⟨fun p q h1 h2 => absurd (strLe_antisymm h1.1 h2.1) h1.2⟩
  exact List.eq_of_perm_of_sorted
    ((sortMembers_perm l1).trans (hp.trans (sortMembers_perm l2).symm))
    ((sortMembers_sorted l1).and hne1) ((sortMembers_sorted l2).and hne2)

theorem sortJsonMembers_eq_map (l : List (String × JVal)) :
    sortJsonMembers l = l.map (fun p => (p.1, sortJson p.2)) := by
  induction l with
  | nil => rfl
  | cons p ps ih => cases p; simp [sortJsonMembers, ih]

/-- The idempotency key is invariant under permuting the keyword arguments
(distinct names), because the canonical serialization sorts them. -/
theorem generate_idempotency_key_perm (pfx : String) (args : List JVal)
    {k1 k2 : List (String × JVal)} (hp : k1.Perm k2)
    (hnd : (k1.map Prod.fst).Nodup) :
    generate_idempotency_key pfx args k1 = generate_idempotency_key pfx args k2 := by
  have hmap : (sortJsonMembers k1).Perm (sortJsonMembers k2) := by
    rw [sortJsonMembers_eq_map, sortJsonMembers_eq_map]
    exact hp.map _
  have hnd1 : ((sortJsonMembers k1).map Prod.fst).Nodup := by
    rw [sortJsonMembers_eq_map, List.map_map]
    simpa [Function.comp] using hnd
  have hinner : sortMembers (sortJsonMembers k1) = sortMembers (sortJsonMembers k2) :=
    sortMembers_eq_of_perm hmap hnd1
  simp only [generate_idempotency_key, jsonDumpsSorted, sortJson,
    sortJsonMembers, hinner]

theorem lookup_filter_key {β : Type} (k : String) (l : List (String × β)) :
    (l.filter (fun e => !(e.1 == k))).lookup k = none := by
  induction l with
  | nil => rfl
  | cons e es ih =>
      obtain ⟨k1, v1⟩ := e
      by_cases h : k1 = k
      · subst h; simpa [List.filter_cons] using ih
      · have h1 : (k1 == k) = false := beq_eq_false_iff_ne.mpr h
        have h2 : (k == k1) = false := beq_eq_false_iff_ne.mpr (Ne.symm h)
        simpa [List.filter_cons, h1, List.lookup, h2] using ih

/-- Rounding an exact 2-decimal value is the identity. -/
theorem round_currency_intCast_div (N : ℤ) :
    round_currency ((N : ℚ) / 100) 2 = (N : ℚ) / 100 := by
  unfold round_currency
  have hhalf : ⌊(1 / 2 : ℚ)⌋ = 0 := by
    rw [Int.floor_eq_zero_iff]
    constructor <;> norm_num
  have hsc : ((10 : ℚ) ^ 2) = 100 := by norm_num
  have hmul : (N : ℚ) / 100 * (10 : ℚ) ^ 2 = (N : ℚ) := by
    rw [hsc]
    exact div_mul_cancel₀ _ (by norm_num)
  rcases le_or_lt 0 N with hN | hN
  · have hpos : (0 : ℚ) ≤ (N : ℚ) / 100 :=
      div_nonneg (by exact_mod_cast hN) (by norm_num)
    rw [if_pos hpos, hmul, Int.floor_int_add, hhalf]
    norm_num
  · have hneg : ¬ (0 : ℚ) ≤ (N : ℚ) / 100 := by
      rw [not_le]
      exact div_neg_of_neg_of_pos (by exact_mod_cast hN) (by norm_num)
    have hmul2 : -((N : ℚ) / 100) * (10 : ℚ) ^ 2 = ((-N : ℤ) : ℚ) := by
      rw [hsc]
      push_cast
      rw [neg_mul, div_mul_cancel₀ _ (by norm_num : (100 : ℚ) ≠ 0)]
    rw [if_neg hneg, hmul2, Int.floor_int_add, hhalf]
    push_cast
    ring

/-! ## Claim theorems -/

set_option maxRecDepth 200000 in
/-- C1: `generate_idempotency_key(prefix, *args, **kwargs)` returns
`prefix + ":" + first 16 hex chars of SHA-256(canonical serialization)`
(sorted field order, stable string conversion); for identical logical
arguments the key is identical regardless of the call-site order of the
keyword arguments; `order_id="123"` yields the key the reference
implementation computes, and `order_id="124"` yields a different key. -/
theorem C1_idempotency_key_canonical :
    (∀ (pfx : String) (args : List JVal) (kwargs : List (String × JVal)),
      generate_idempotency_key pfx args kwargs =
        pfx ++ ":" ++ String.mk ((sha256Hexdigest (asciiBytes (jsonDumpsSorted
          (.jobj [("prefix", .jstr pfx), ("args", .jlist args),
                  ("kwargs", .jobj kwargs)])))).take 16)) ∧
    (∀ (pfx : String) (args : List JVal) (k1 k2 : List (String × JVal)),
      k1.Perm k2 → (k1.map Prod.fst).Nodup →
      generate_idempotency_key pfx args k1 = generate_idempotency_key pfx args k2) ∧
    (generate_idempotency_key "create_invoice" [] [("order_id", .jstr "123")] =
      "create_invoice:3c9d74bd66e4104c") ∧
    generate_idempotency_key "create_invoice" [] [("order_id", .jstr "123")] ≠
      generate_idempotency_key "create_invoice" [] [("order_id", .jstr "124")] :=
  ⟨fun _ _ _ => rfl,
   fun pfx args _ _ hp hnd => generate_idempotency_key_perm pfx args hp hnd,
   by decide, by decide⟩

/-- C1 witness: two calls differing only in keyword-argument order yield
the same key. -/
theorem C1_idempotency_key_canonical_witness :
    generate_idempotency_key "create_invoice" []
        [("amount", .jstr "5"), ("order_id", .jstr "123")] =
      generate_idempotency_key "create_invoice" []
        [("order_id", .jstr "123"), ("amount", .jstr "5")] :=
  C1_idempotency_key_canonical.2.1 "create_invoice" [] _ _
    (List.Perm.swap ("order_id", JVal.jstr "123") ("amount", JVal.jstr "5") [])
    (by decide)

/-- C2: after `set(k, r)` at time `t` the store maps `k` to `(t, r)`
(overwriting any prior value), an immediate `get(k)` returns `r`; once the
injected clock is past `t + ttl` (default 24 h), `get(k)` returns absent
(`None`) and the expired entry is removed by that access. -/
theorem C2_store_set_get_ttl :
    ∀ (s : IdempotencyStore) (t : Nat) (k : String) (r : PyVal),
      ((s.set t k r).entries.lookup k = some (t, r)) ∧
      ((s.set t k r).get t k = (r, s.set t k r)) ∧
      (∀ t2 : Nat, t + s.ttl_hours * 3600 < t2 →
        ((s.set t k r).get t2 k).1 = PyVal.pynone ∧
        (((s.set t k r).get t2 k).2.entries.lookup k = none)) ∧
      IdempotencyStore.defaultStore.ttl_hours = 24 := by
  intro s t k r
  have hlookup : (s.set t k r).entries.lookup k = some (t, r) := by
    simp [IdempotencyStore.set, List.lookup]
  refine ⟨hlookup, ?_, ?_, rfl⟩
  · simp only [IdempotencyStore.get, hlookup]
    simp
  · intro t2 ht
    have hexp : (s.set t k r).ttl_hours * 3600 < t2 - t := by
      simp only [IdempotencyStore.set] at *
      omega
    simp only [IdempotencyStore.get, hlookup]
    rw [if_pos hexp]
    exact ⟨rfl, lookup_filter_key k _⟩

/-- C2 witness: a concrete set/get round trip and TTL expiry. -/
theorem C2_store_set_get_ttl_witness :
    (((IdempotencyStore.init 24).set 0 "k1" (.pystr "inv")).get 0 "k1" =
      ((.pystr "inv"), (IdempotencyStore.init 24).set 0 "k1" (.pystr "inv"))) ∧
    ((((IdempotencyStore.init 24).set 0 "k1" (.pystr "inv")).get 86401 "k1").1 =
      PyVal.pynone) :=
  ⟨(C2_store_set_get_ttl (IdempotencyStore.init 24) 0 "k1" (.pystr "inv")).2.1,
   ((C2_store_set_get_ttl (IdempotencyStore.init 24) 0 "k1"
      (.pystr "inv")).2.2.1 86401 (by decide)).1⟩

/-- C3 (code bug): on HTTP 429 the transport sleeps the `Retry-After`
seconds and then raises `RateLimitError` **without retrying**: with
`Retry-After: 5` and a transport that would succeed on attempt 2 (settings
3/2/300), the call surfaces the rate-limit error after exactly 1 attempt
having slept 5 s.  The tenacity decorator only retries
`httpx.NetworkError`/`httpx.TimeoutException`, and `RateLimitError` is
neither — contradicting the claimed retry-after-429 behavior. -/
theorem C3_rate_limit_sleep_then_raise :
    (BaseAPIClient.request 3 2 300
        (fun n => if n = 1 then .status 429 (some 5) 0 else .ok 7) =
      ⟨.error (.rateLimitError 429), 1, 5⟩) ∧
    tenacityRetryable (.rateLimitError 429) = false :=
  ⟨by with_unfolding_all rfl, rfl⟩

/-- C4 counterexample: at the exact-cent gross 0.59 and rate 19 the
net/gross round trip returns 0.60 ≠ 0.59 (net 0.59/1.19 rounds to 0.50;
0.50·1.19 = 0.595 rounds half-up to 0.60). -/
theorem C4_roundtrip_counterexample :
    calculate_net_from_gross (59/100) 19 = 1/2 ∧
    calculate_gross_from_net (calculate_net_from_gross (59/100) 19) 19 = 3/5 ∧
    (3/5 : ℚ) ≠ 59/100 :=
  ⟨by with_unfolding_all rfl, by with_unfolding_all rfl,
   by with_unfolding_all decide⟩

/-- C4 amended: the gross→net→gross round trip restores `g` for every
2-decimal gross and rate in {7, 19, 20} **provided** the intermediate net
amount `g/(1+r/100)` is itself exactly representable at 2 decimals (the
spec's documented exception — the counterexample 0.59 at 19 % violates
exactly this); the end-to-end scenario values hold. -/
theorem C4_roundtrip_exact_amended :
    (∀ (g r : ℚ) (G N : ℤ), (r = 7 ∨ r = 19 ∨ r = 20) →
        g = (G : ℚ) / 100 → g / (1 + r / 100) = (N : ℚ) / 100 →
        calculate_gross_from_net (calculate_net_from_gross g r) r = g) ∧
    calculate_net_from_gross 119 19 = 100 ∧
    calculate_tax_amount 100 19 = 19 := by
  refine ⟨?_, by with_unfolding_all rfl, by with_unfolding_all rfl⟩
  intro g r G N hr hG hN
  have hrpos : (0 : ℚ) < 1 + r / 100 := by
    rcases hr with h | h | h <;> subst h <;> norm_num
  unfold calculate_net_from_gross calculate_gross_from_net
  rw [hN, round_currency_intCast_div N]
  have hmul : ((N : ℚ) / 100) * (1 + r / 100) = g := by
    rw [← hN]
    exact div_mul_cancel₀ _ (ne_of_gt hrpos)
  rw [hmul, hG, round_currency_intCast_div G]

/-- C4 witness: the round trip at gross 119.00, rate 19 (net exactly
100.00) restores 119.00. -/
theorem C4_roundtrip_exact_amended_witness :
    calculate_gross_from_net (calculate_net_from_gross 119 19) 19 = 119 :=
  C4_roundtrip_exact_amended.1 119 19 11900 10000 (Or.inr (Or.inl rfl))
    (by with_unfolding_all decide) (by with_unfolding_all decide)

/-- C5 counterexample: the claimed formula `convert = round₂(a·rate)` fails
for `from == to`: converting 1.005 EUR→EUR returns 1.005 unrounded, while
`round₂(1.005 · getRate(EUR,EUR)) = round₂(1.005 · 1) = 1.01`. -/
theorem C5_convert_formula_counterexample :
    (convert_currency (201/200) "EUR" "EUR" (manualRateFn [("USD", 11/10)]) none =
      .ok (201/200)) ∧
    (manualRateFn [("USD", 11/10)] "EUR" "EUR" none = .ok 1) ∧
    (round_currency ((201/200) * 1) 2 = 101/100) ∧
    (201/200 : ℚ) ≠ 101/100 :=
  ⟨by with_unfolding_all rfl, by with_unfolding_all rfl,
   by with_unfolding_all rfl, by with_unfolding_all decide⟩

/-- C5 amended: for `from ≠ to`, `convert_currency` is exactly
`round₂(amount · provider_rate)`; for `from == to` the amount is returned
unchanged (no rounding is applied at all — hence no drift); 100.00 USD with
a manual provider `{"USD": 1.10}` converts to exactly 90.91 EUR. -/
theorem C5_convert_amended :
    (∀ (a : ℚ) (f t : String)
        (rateFn : String → String → Option String → Except CurrencyError ℚ)
        (d : Option String) (r : ℚ), f ≠ t → rateFn f t d = .ok r →
        convert_currency a f t rateFn d = .ok (round_currency (a * r) 2)) ∧
    (∀ (a : ℚ) (c : String)
        (rateFn : String → String → Option String → Except CurrencyError ℚ)
        (d : Option String), convert_currency a c c rateFn d = .ok a) ∧
    (convert_currency 100 "USD" "EUR" (manualRateFn [("USD", 11/10)]) none =
      .ok (9091/100)) := by
  refine ⟨?_, ?_, by with_unfolding_all rfl⟩
  · intro a f t rateFn d r hft hrate
    unfold convert_currency
    rw [if_neg hft, hrate]
  · intro a c rateFn d
    unfold convert_currency
    rw [if_pos rfl]

/-- C5 witness: the rounding formula at a concrete non-identity pair. -/
theorem C5_convert_amended_witness :
    convert_currency 100 "USD" "EUR" (manualRateFn [("USD", 11/10)]) none =
      .ok (round_currency (100 * (10/11)) 2) :=
  C5_convert_amended.1 100 "USD" "EUR" (manualRateFn [("USD", 11/10)]) none
    (10/11) (by decide) (by with_unfolding_all rfl)

/-- C6: every provider variant returns exactly 1 for an identity pair,
independently of the rate table or fetch outcome (no lookup, no network
call — the ECB variant returns 1 even when the fetch would fail); and for
EUR-based tables the cross rate is `rate(to)/rate(from)` off the base,
`rate(to)` from EUR, and `1/rate(from)` into EUR. -/
theorem C6_get_rate_identity_and_cross :
    (∀ (rates : List (String × ℚ)) (X : String),
        ManualProvider.get_rate rates X X = .ok 1) ∧
    (∀ (fetched : Except CurrencyError (List (String × ℚ))) (X : String),
        ECBProvider.get_rate fetched X X = .ok 1) ∧
    (∀ X : String, FixerProvider.get_rate X X = .ok 1) ∧
    (∀ (rates : List (String × ℚ)) (f t : String) (rf rt : ℚ),
        rates.lookup f = some rf → rates.lookup t = some rt →
        f ≠ "EUR" → t ≠ "EUR" → rf ≠ 0 →
        ManualProvider.get_rate rates f t = .ok (rt / rf) ∧
        ECBProvider.get_rate (.ok rates) f t = .ok (rt / rf)) ∧
    (∀ (rates : List (String × ℚ)) (t : String) (rt : ℚ),
        rates.lookup t = some rt → t ≠ "EUR" →
        ManualProvider.get_rate rates "EUR" t = .ok rt ∧
        ECBProvider.get_rate (.ok rates) "EUR" t = .ok rt) ∧
    (∀ (rates : List (String × ℚ)) (f : String) (rf : ℚ),
        rates.lookup f = some rf → f ≠ "EUR" → rf ≠ 0 →
        ManualProvider.get_rate rates f "EUR" = .ok (1 / rf) ∧
        ECBProvider.get_rate (.ok rates) f "EUR" = .ok (1 / rf)) := by
  refine ⟨?_, ?_, ?_, ?_, ?_, ?_⟩
  · intro rates X; simp [ManualProvider.get_rate]
  · intro fetched X; simp [ECBProvider.get_rate]
  · intro X; simp [FixerProvider.get_rate]
  · intro rates f t rf rt hf ht hfE htE hrf
    by_cases hft : f = t
    · subst hft
      have : rf = rt := by rw [hf] at ht; exact (Option.some.injEq _ _).mp ht
      subst this
      rw [div_self hrf]
      constructor <;> simp [ManualProvider.get_rate, ECBProvider.get_rate]
    · constructor <;>
        simp [ManualProvider.get_rate, ECBProvider.get_rate, crossRate,
          hft, hfE, htE, hf, ht, hrf]
  · intro rates t rt ht htE
    have hEt : "EUR" ≠ t := Ne.symm htE
    constructor <;>
      simp [ManualProvider.get_rate, ECBProvider.get_rate, crossRate, hEt, ht]
  · intro rates f rf hf hfE hrf
    constructor <;>
      simp [ManualProvider.get_rate, ECBProvider.get_rate, crossRate,
        hfE, hf, hrf]

/-- C6 witness: identity and all three cross-rate shapes at a concrete
table. -/
theorem C6_get_rate_identity_and_cross_witness :
    (ManualProvider.get_rate [] "USD" "USD" = .ok 1) ∧
    (ECBProvider.get_rate (.error (.fetchFailed 7)) "USD" "USD" = .ok 1) ∧
    (ManualProvider.get_rate [("USD", 11/10), ("GBP", 9/10)] "USD" "GBP" =
      .ok ((9/10) / (11/10))) ∧
    (ManualProvider.get_rate [("USD", 11/10)] "EUR" "USD" = .ok (11/10)) ∧
    (ManualProvider.get_rate [("USD", 11/10)] "USD" "EUR" = .ok (1 / (11/10))) :=
  ⟨C6_get_rate_identity_and_cross.1 [] "USD",
   C6_get_rate_identity_and_cross.2.1 (.error (.fetchFailed 7)) "USD",
   (C6_get_rate_identity_and_cross.2.2.2.1 [("USD", 11/10), ("GBP", 9/10)]
      "USD" "GBP" (11/10) (9/10) rfl rfl (by decide) (by decide)
      (by with_unfolding_all decide)).1,
   (C6_get_rate_identity_and_cross.2.2.2.2.1 [("USD", 11/10)] "USD" (11/10)
      rfl (by decide)).1,
   (C6_get_rate_identity_and_cross.2.2.2.2.2 [("USD", 11/10)] "USD" (11/10)
      rfl (by decide) (by with_unfolding_all decide)).1⟩

/-- C7 (code bug): transient network failures are never retried.  Inside
the decorated body, `except httpx.RequestError` converts every
`httpx.NetworkError`/`httpx.TimeoutException` into a plain `APIError`
before tenacity can see it, and `APIError` is not in
`retry_if_exception_type` — so a transport failing transiently twice and
then succeeding surfaces `APIError` after exactly 1 attempt with zero
backoff sleep (instead of returning the success after 2 retries with wait
`2 + 4`).  In fact no exception the body can raise is retryable. -/
theorem C7_transient_retry_dead :
    (BaseAPIClient.request 3 2 300
        (fun n => if n ≤ 2 then .netError else .ok 7) =
      ⟨.error (.apiError none), 1, 0⟩) ∧
    (∀ (o : HttpOutcome) (e : PyExc), (requestBody o).1 = .error e →
      tenacityRetryable e = false) := by
  refine ⟨by with_unfolding_all rfl, ?_⟩
  intro o e h
  cases o with
  | ok b => simp [requestBody] at h
  | netError =>
      simp only [requestBody, Except.error.injEq] at h
      rw [← h]; rfl
  | timeout =>
      simp only [requestBody, Except.error.injEq] at h
      rw [← h]; rfl
  | status code ra body =>
      simp only [requestBody] at h
      split_ifs at h <;>
        first
        | (simp only [Except.error.injEq] at h; rw [← h]; rfl)
        | simp at h

/-- C7 witness: the converted `APIError` is not a retryable exception. -/
theorem C7_transient_retry_dead_witness :
    tenacityRetryable (.apiError none) = false :=
  C7_transient_retry_dead.2 .netError (.apiError none) rfl

/-- C8: HTTP 401/403 is never retried: with any attempt budget ≥ 1 and any
backoff settings, a first response of 401 or 403 makes `request` surface
`AuthenticationError` carrying that status code after exactly 1 attempt,
with zero sleep. -/
theorem C8_auth_never_retried :
    ∀ (maxAtt : Nat) (mult maxW : ℚ) (transport : Nat → HttpOutcome)
      (code : Nat) (ra : Option Nat) (body : Nat),
      1 ≤ maxAtt → (code = 401 ∨ code = 403) →
      transport 1 = .status code ra body →
      BaseAPIClient.request maxAtt mult maxW transport =
        ⟨.error (.authError code), 1, 0⟩ := by
  intro maxAtt mult maxW tr code ra body hmax hcode htr
  obtain ⟨k, rfl⟩ : ∃ k, maxAtt = k + 1 := ⟨maxAtt - 1, by omega⟩
  have h429 : ¬ code = 429 := by rcases hcode with h | h <;> omega
  have hreq : requestBody (.status code ra body) =
      (.error (.authError code), 0) := by
    simp only [requestBody]
    rw [if_neg h429, if_pos hcode]
  simp only [BaseAPIClient.request, tenacityLoop, htr, hreq]
  simp [tenacityRetryable]

/-- C8 witness: a concrete 401 surfaces after one attempt. -/
theorem C8_auth_never_retried_witness :
    BaseAPIClient.request 3 2 300 (fun _ => .status 401 none 0) =
      ⟨.error (.authError 401), 1, 0⟩ :=
  C8_auth_never_retried 3 2 300 (fun _ => .status 401 none 0) 401 none 0
    (by decide) (Or.inl rfl) rfl

/-- C9: when the ECB fetch fails, `_fetch_rates` falls back to the cached
table for the requested cache key when one exists (each key holds the most
recent table fetched for it, refetches overwrite it) and returns those
rates with the cache unchanged; with no cached table the failure is
propagated to the caller unchanged. -/
theorem C9_ecb_fetch_fallback :
    ∀ (cache : List (String × ECBCacheEntry)) (key : String) (t : Nat)
      (e : CurrencyError),
      (∀ entry : ECBCacheEntry, cache.lookup key = some entry →
        ECBProvider.fetch_rates cache key t (.error e) =
          .ok (entry.rates, cache)) ∧
      (cache.lookup key = none →
        ECBProvider.fetch_rates cache key t (.error e) = .error e) := by
  intro cache key t e
  constructor
  · intro entry hlookup
    by_cases hfresh : t - entry.fetchedAt < ECBcacheDurationSecs <;>
      simp [ECBProvider.fetch_rates, hlookup, hfresh]
  · intro hlookup
    simp [ECBProvider.fetch_rates, hlookup]

/-- C9 witness: stale-cache fallback and no-cache propagation, concretely. -/
theorem C9_ecb_fetch_fallback_witness :
    (ECBProvider.fetch_rates [("daily", ⟨0, [("USD", 2)]⟩)] "daily" 90000
        (.error (.fetchFailed 3)) =
      .ok ([("USD", 2)], [("daily", ⟨0, [("USD", 2)]⟩)])) ∧
    (ECBProvider.fetch_rates [] "daily" 90000 (.error (.fetchFailed 3)) =
      .error (.fetchFailed 3)) :=
  ⟨(C9_ecb_fetch_fallback [("daily", ⟨0, [("USD", 2)]⟩)] "daily" 90000
      (.fetchFailed 3)).1 ⟨0, [("USD", 2)]⟩ rfl,
   (C9_ecb_fetch_fallback [] "daily" 90000 (.fetchFailed 3)).2 rfl⟩

/-- C10: a stored `None` result is indistinguishable from absence: after
`set(k, None)` (or `store_result(None)`), `get(k)` returns `None`, the
`idempotent` decorator re-executes the wrapped function on the next call
within the TTL, `should_execute()` is true, and `get_cached_result()`
raises `IdempotencyError` — so at-most-once execution fails for
`None`-valued operations. -/
theorem C10_none_result_reexecutes :
    ∀ (s : IdempotencyStore) (t t2 : Nat) (k : String) (f : PyVal),
      t2 - t ≤ s.ttl_hours * 3600 →
      (((s.set t k .pynone).get t2 k).1 = PyVal.pynone) ∧
      ((idempotentCall (s.set t k .pynone) t2 k f).executed = true) ∧
      ((idempotentCall (s.set t k .pynone) t2 k f).result = f) ∧
      ((IdempotentOperation.enter (s.set t k .pynone) t2 k).1.should_execute
        = true) ∧
      ((IdempotentOperation.enter (s.set t k .pynone) t2 k).1.get_cached_result
        = .error ("No cached result for key: " ++ k)) ∧
      (∀ (op : IdempotentOperation) (s0 : IdempotencyStore),
        op.key = k → t2 - t ≤ s0.ttl_hours * 3600 →
        ((op.store_result s0 t PyVal.pynone).2.get t2 k).1 = PyVal.pynone) := by
  intro s t t2 k f h
  have hget : ∀ s0 : IdempotencyStore, t2 - t ≤ s0.ttl_hours * 3600 →
      (s0.set t k .pynone).get t2 k = (.pynone, s0.set t k .pynone) := by
    intro s0 h0
    have hlookup : (s0.set t k .pynone).entries.lookup k = some (t, .pynone) := by
      simp [IdempotencyStore.set, List.lookup]
    have hfresh : ¬ (s0.set t k .pynone).ttl_hours * 3600 < t2 - t := by
      simp only [IdempotencyStore.set]
      omega
    simp only [IdempotencyStore.get, hlookup]
    rw [if_neg hfresh]
  have hs := hget s h
  refine ⟨by rw [hs], ?_, ?_, ?_, ?_, ?_⟩
  · unfold idempotentCall
    rw [hs]
  · unfold idempotentCall
    rw [hs]
  · unfold IdempotentOperation.enter
    rw [hs]
    rfl
  · unfold IdempotentOperation.enter
    rw [hs]
    rfl
  · intro op s0 hkey h0
    unfold IdempotentOperation.store_result
    rw [hkey, hget s0 h0]

/-- C10 witness: a stored `None` re-executes concretely. -/
theorem C10_none_result_reexecutes_witness :
    (idempotentCall ((IdempotencyStore.init 24).set 0 "op" .pynone) 100 "op"
      (.pystr "x")).executed = true :=
  ((C10_none_result_reexecutes (IdempotencyStore.init 24) 0 100 "op"
    (.pystr "x") (by decide)).2.1)

end EtsySevdesk
